import Mathlib

/-
Verification of the pointer-effect gesture subsystem (src/src/PointerEffect.ts).

The embedding below mirrors the runtime data of the `PointerEffect` class that
the gesture algorithm reads and writes: the current `PointerSession`, the
`_isClick` flag, and the `_filteredPoints` polyline.  Rendering-only state
(`_line`, `_meshPoints`, debug canvas, dirty flags) is out of scope.

Machine reals (JS numbers) are idealised as `ℝ`.
-/

open Classical

noncomputable section

/-- A 2D vector with real coordinates, modelling `BABYLON.Vector2`
(external library; only `length`, `normalize` and `set` are used). -/
structure Vector2 where
  x : ℝ
  y : ℝ

/-- Babylon `Vector2.length`: `Math.sqrt(x*x + y*y)`. -/
def Vector2.length (v : Vector2) : ℝ :=
  Real.sqrt (v.x ^ 2 + v.y ^ 2)

/-- Babylon `Vector2.normalize`: divides by the length, guarded — a
zero-length vector is returned unchanged (`if (len === 0) return this`). -/
def Vector2.normalize (v : Vector2) : Vector2 :=
  if v.length = 0 then v else ⟨v.x / v.length, v.y / v.length⟩

/-- One raw input event from the gesture recognizer (hammer.input):
a 2D center position plus the first/final flags.  Other event metadata is
never read by the core algorithm. -/
structure InputEvent where
  center : Vector2
  isFirst : Bool
  isFinal : Bool

/-- Modelled from the spec: `PointerSession` is repository code that is not
under src/ (only its callers are available).  Per spec §3/§4.1 it owns the
ordered sample history, the cumulative traveled distance and the ended flag. -/
structure PointerSession where
  inputData : List InputEvent
  traveledDistance : ℝ
  isEnded : Bool

/-- A freshly constructed session (`new PointerSession()`). -/
def PointerSession.empty : PointerSession :=
  ⟨[], 0, false⟩

/-- Modelled from the spec: `PointerSession.addInputPoint` appends a raw
sample and adds the Euclidean distance between the new sample's center and
the previous sample's center (zero for the very first sample); it is a
no-op after the session has ended, and the session is marked ended when the
final sample is appended (spec §3, §4.1). -/
def PointerSession.addInputPoint (s : PointerSession) (e : InputEvent) : PointerSession :=
  if s.isEnded then s
  else
    { inputData := s.inputData ++ [e]
      traveledDistance := s.traveledDistance +
        (match s.inputData.getLast? with
         | none => 0
         | some p =>
             Real.sqrt ((e.center.x - p.center.x) ^ 2 + (e.center.y - p.center.y) ^ 2))
      isEnded := e.isFinal }

/-- One vertex of the simplified polyline: the object literal built in
`_onSessionUpdate` (lines 194-203). -/
structure FilteredPoint where
  x : ℝ
  y : ℝ
  input : InputEvent
  traveledDistance : ℝ
  distanceToLast : ℝ
  isStart : Bool
  isEnd : Bool
  normal : Vector2

/-- The runtime state of the `PointerEffect` singleton that the gesture
algorithm touches: `_currentSession`, `_isClick`, `_filteredPoints`. -/
structure EffectState where
  currentSession : Option PointerSession
  isClick : Bool
  filteredPoints : List FilteredPoint

/-- `const MIN_SWIPE_THRESHOLD = 10`. -/
def MIN_SWIPE_THRESHOLD : ℝ := 10

/-- `const MIN_SWIPE_SEG = 50`. -/
def MIN_SWIPE_SEG : ℝ := 50

/-- The candidate filtered point built from the newest sample
(lines 194-203 of PointerEffect.ts). -/
def mkCandidate (e : InputEvent) (td : ℝ) : FilteredPoint :=
  { x := e.center.x, y := e.center.y, input := e, traveledDistance := td
    distanceToLast := 0, isStart := false, isEnd := true, normal := ⟨0, 0⟩ }

/-- The point-filtering phase of `_onSessionUpdate` (lines 207-238).
`none` models a thrown TypeError: in the source, when the tail does not have
`isEnd` set (or when the tail is a non-anchor with no point before it),
`lastDeterminedPoint` stays `null`/`undefined` and the property access on
line 228 throws. -/
def filterPhase (pts : List FilteredPoint) (fp : FilteredPoint) : Option (List FilteredPoint) :=
  match pts.getLast? with
  | none => some [{ fp with isStart := true }]
  | some lastFP =>
    match (if lastFP.isEnd = true then
             (if lastFP.isStart = true then some lastFP else pts.dropLast.getLast?)
           else none) with
    | none => none
    | some lastDetermined =>
      if fp.traveledDistance - lastDetermined.traveledDistance > MIN_SWIPE_SEG
          ∨ lastFP.isStart = true then
        some (pts.dropLast ++ [{ lastFP with isEnd := false }, fp])
      else
        some (pts.dropLast ++ [fp])

/-- The normal-making phase of `_onSessionUpdate` (lines 246-269): when the
session is not a click and both `pts[len-1]` and `pts[len-2]` exist, the
tail's normal is set to the normalized counter-clockwise perpendicular of
the normalized last-segment direction. -/
def makeNormals (click : Bool) (pts : List FilteredPoint) : List FilteredPoint :=
  if click = false then
    match pts.getLast?, pts.dropLast.getLast? with
    | some currentFP, some lastFP =>
        let v := Vector2.normalize ⟨currentFP.x - lastFP.x, currentFP.y - lastFP.y⟩
        pts.dropLast ++ [{ currentFP with normal := Vector2.normalize ⟨-v.y, v.x⟩ }]
    | _, _ => pts
  else pts

/-- The normal assigned to the tail in `makeNormals`, as a function of the
last-segment displacement: the normalized counter-clockwise perpendicular
`(-dir.y, dir.x)` of the normalized direction `dir`. -/
def perpNormal (dx dy : ℝ) : Vector2 :=
  Vector2.normalize ⟨-(Vector2.normalize ⟨dx, dy⟩).y, (Vector2.normalize ⟨dx, dy⟩).x⟩

/-- `_onSessionUpdate` (lines 174-270): early return when there is no
current session; otherwise re-evaluate the click flag, build the candidate
from the newest sample (`none` when the sample list is empty, where the
source would throw), run the filter phase, then the normal phase. -/
def onSessionUpdate (s : EffectState) : Option EffectState :=
  match s.currentSession with
  | none => some s
  | some sess =>
    let click := if sess.traveledDistance > MIN_SWIPE_THRESHOLD then false else s.isClick
    match sess.inputData.getLast? with
    | none => none
    | some currentInput =>
      match filterPhase s.filteredPoints (mkCandidate currentInput sess.traveledDistance) with
      | none => none
      | some pts => some { s with isClick := click, filteredPoints := makeNormals click pts }

/-- `_onSessionStart` (lines 167-171): reset the click flag and clear the
filtered points. -/
def onSessionStart (s : EffectState) : EffectState :=
  { s with isClick := true, filteredPoints := [] }

/-- The `hammer.input` handler registered in `init` (lines 57-75): create a
new session when none is active or the event is the first of a gesture,
append the sample, run the session-start reset only for first events, then
run the update.  `_onSessionEnd` is an empty method and contributes
nothing. -/
def handleInput (s : EffectState) (e : InputEvent) : Option EffectState :=
  let sess :=
    match s.currentSession with
    | none => PointerSession.empty.addInputPoint e
    | some old =>
        if e.isFirst then PointerSession.empty.addInputPoint e else old.addInputPoint e
  let s1 : EffectState := { s with currentSession := some sess }
  onSessionUpdate (if e.isFirst then onSessionStart s1 else s1)

/-- Feed a list of input events through the handler, one at a time. -/
def runEvents (s : EffectState) : List InputEvent → Option EffectState
  | [] => some s
  | e :: es =>
    match handleInput s e with
    | none => none
    | some s1 => runEvents s1 es

/-- The field initializers of the `PointerEffect` class (lines 21-29):
no session, `_isClick = false`, empty filtered points. -/
def initialState : EffectState :=
  ⟨none, false, []⟩

/-- Sample 1 of the C4 scenario: (0,0), flagged first. -/
def e41 : InputEvent := ⟨⟨0, 0⟩, true, false⟩

/-- Sample 2 of the C4 scenario: (5,0). -/
def e42 : InputEvent := ⟨⟨5, 0⟩, false, false⟩

/-- Sample 3 of the C4 scenario: (60,0). -/
def e43 : InputEvent := ⟨⟨60, 0⟩, false, false⟩

/-- Sample 4 of the C4 scenario: (65,0), flagged final. -/
def e44 : InputEvent := ⟨⟨65, 0⟩, false, true⟩

/-- The session after sample 1 of the C4 scenario (traveled distance 0). -/
def sess41 : PointerSession := ⟨[e41], 0, false⟩

/-- The session after sample 2 of the C4 scenario (traveled distance 5). -/
def sess42 : PointerSession := ⟨[e41, e42], 5, false⟩

/-- The session after sample 3 of the C4 scenario (traveled distance 60). -/
def sess43 : PointerSession := ⟨[e41, e42, e43], 60, false⟩

/-- The session after sample 4 of the C4 scenario (traveled distance 65, ended). -/
def sess44 : PointerSession := ⟨[e41, e42, e43, e44], 65, true⟩

/-- The anchor filtered point of the C4 scenario. -/
def A1 : FilteredPoint := ⟨0, 0, e41, 0, 0, true, true, ⟨0, 0⟩⟩

/-- The filtered point accepted for sample 2 of the C4 scenario. -/
def B2 : FilteredPoint := ⟨5, 0, e42, 5, 0, false, true, ⟨0, 0⟩⟩

/-- The filtered point accepted for sample 3 of the C4 scenario, with its
computed normal (0,1). -/
def C3p : FilteredPoint := ⟨60, 0, e43, 60, 0, false, true, ⟨0, 1⟩⟩

/-- The filtered point accepted for sample 4 of the C4 scenario, with its
computed normal (0,1). -/
def D4 : FilteredPoint := ⟨65, 0, e44, 65, 0, false, true, ⟨0, 1⟩⟩

/-- The effect state after sample 1 of the C4 scenario. -/
def S41 : EffectState := ⟨some sess41, true, [A1]⟩

/-- The effect state after sample 2 of the C4 scenario. -/
def S42 : EffectState := ⟨some sess42, true, [{ A1 with isEnd := false }, B2]⟩

/-- The effect state after sample 3 of the C4 scenario. -/
def S43 : EffectState :=
  ⟨some sess43, false, [{ A1 with isEnd := false }, { B2 with isEnd := false }, C3p]⟩

/-- The effect state after sample 4 of the C4 scenario. -/
def S44 : EffectState :=
  ⟨some sess44, false,
    [{ A1 with isEnd := false }, { B2 with isEnd := false }, { C3p with isEnd := false }, D4]⟩

/-- Sample 1 of the C5 scenario: (0,0), flagged first. -/
def e51 : InputEvent := ⟨⟨0, 0⟩, true, false⟩

/-- Sample 2 of the C5 scenario: (3,0), flagged final. -/
def e52 : InputEvent := ⟨⟨3, 0⟩, false, true⟩

/-- The session after sample 1 of the C5 scenario. -/
def sess51 : PointerSession := ⟨[e51], 0, false⟩

/-- The session after sample 2 of the C5 scenario (traveled distance 3, ended). -/
def sess52 : PointerSession := ⟨[e51, e52], 3, true⟩

/-- The anchor filtered point of the C5 scenario. -/
def A5 : FilteredPoint := ⟨0, 0, e51, 0, 0, true, true, ⟨0, 0⟩⟩

/-- The filtered point accepted for sample 2 of the C5 scenario. -/
def B5 : FilteredPoint := ⟨3, 0, e52, 3, 0, false, true, ⟨0, 0⟩⟩

/-- The effect state after sample 1 of the C5 scenario. -/
def S51 : EffectState := ⟨some sess51, true, [A5]⟩

/-- The effect state after sample 2 of the C5 scenario. -/
def S52 : EffectState := ⟨some sess52, true, [{ A5 with isEnd := false }, B5]⟩

/-- A sample used by the degenerate-geometry witness: (5,0), mid-gesture. -/
def e9 : InputEvent := ⟨⟨5, 0⟩, false, false⟩

/-- A session for the degenerate-geometry witness (traveled distance 20). -/
def sess9 : PointerSession := ⟨[e9], 20, false⟩

/-- A committed anchor at (5,0) for the degenerate-geometry witness. -/
def P9a : FilteredPoint := ⟨5, 0, e9, 0, 0, true, false, ⟨0, 0⟩⟩

/-- A provisional tail at (5,0) (same position as the anchor) for the
degenerate-geometry witness. -/
def P9t : FilteredPoint := ⟨5, 0, e9, 5, 0, false, true, ⟨0, 0⟩⟩

/-- The pre-update state of the degenerate-geometry witness. -/
def S9 : EffectState := ⟨some sess9, false, [P9a, P9t]⟩

/-- The well-formedness invariant of the filtered-point polyline: either just
the anchor (flagged both start and end), or the anchor followed by locked-in
interior vertices and a provisional tail. -/
def PolyInv (ps : List FilteredPoint) : Prop :=
  (∃ a, ps = [a] ∧ a.isStart = true ∧ a.isEnd = true) ∨
  (∃ a mid t, ps = a :: (mid ++ [t]) ∧ a.isStart = true ∧ a.isEnd = false ∧
     (∀ p ∈ mid, p.isStart = false ∧ p.isEnd = false) ∧
     t.isStart = false ∧ t.isEnd = true)

/-- The invariant maintained across the updates of one gesture session whose
first sample was `firstE` and whose most recent sample is `lastE`. -/
def RunInv (s : EffectState) (firstE lastE : InputEvent) : Prop :=
  ∃ sess, s.currentSession = some sess ∧ sess.inputData.getLast? = some lastE ∧
    sess.isEnded = lastE.isFinal ∧
    PolyInv s.filteredPoints ∧
    (∃ t, s.filteredPoints.getLast? = some t ∧ t.x = lastE.center.x ∧ t.y = lastE.center.y) ∧
    (∃ a, s.filteredPoints.head? = some a ∧ a.isStart = true ∧
      a.x = firstE.center.x ∧ a.y = firstE.center.y)

end

lemma sqrt_num (a b : ℝ) (ha : 0 ≤ a) (h : a ^ 2 = b) : Real.sqrt b = a := by
  subst h; exact Real.sqrt_sq ha

lemma vec_length_zero : Vector2.length ⟨0, 0⟩ = 0 := by
  rw [Vector2.length]; norm_num

lemma vec_normalize_zero : Vector2.normalize ⟨0, 0⟩ = ⟨0, 0⟩ := by
  rw [Vector2.normalize, if_pos vec_length_zero]

lemma sq_sum_pos (dx dy : ℝ) (h : ¬(dx = 0 ∧ dy = 0)) : 0 < dx ^ 2 + dy ^ 2 := by
  rcases lt_or_eq_of_le (by positivity : (0:ℝ) ≤ dx ^ 2 + dy ^ 2) with hlt | heq
  · exact hlt
  · exfalso
    have := (add_eq_zero_iff_of_nonneg (by positivity) (by positivity)).mp heq.symm
    exact h ⟨by nlinarith [this.1], by nlinarith [this.2]⟩

lemma length_pos (dx dy : ℝ) (h : ¬(dx = 0 ∧ dy = 0)) : 0 < (Vector2.mk dx dy).length := by
  rw [Vector2.length]
  exact Real.sqrt_pos.mpr (sq_sum_pos dx dy h)

lemma normalize_sq_sum (dx dy : ℝ) (h : ¬(dx = 0 ∧ dy = 0)) :
    (Vector2.normalize ⟨dx, dy⟩).x ^ 2 + (Vector2.normalize ⟨dx, dy⟩).y ^ 2 = 1 := by
  have hL := length_pos dx dy h
  rw [Vector2.normalize, if_neg (ne_of_gt hL)]
  have hsq : (Vector2.mk dx dy).length ^ 2 = dx ^ 2 + dy ^ 2 := by
    rw [Vector2.length]
    exact Real.sq_sqrt (by positivity)
  have hne : (Vector2.mk dx dy).length ^ 2 ≠ 0 := by positivity
  field_simp
  linarith [hsq]

lemma length_eq_one (v : Vector2) (h : v.x ^ 2 + v.y ^ 2 = 1) : v.length = 1 := by
  rw [Vector2.length, h, Real.sqrt_one]

lemma normalize_of_unit (v : Vector2) (h : v.length = 1) : Vector2.normalize v = v := by
  rw [Vector2.normalize, if_neg (by rw [h]; norm_num)]
  rw [h]
  simp

lemma perp_normal_unit (dx dy : ℝ) (h : ¬(dx = 0 ∧ dy = 0)) :
    (Vector2.normalize ⟨-(Vector2.normalize ⟨dx, dy⟩).y,
                        (Vector2.normalize ⟨dx, dy⟩).x⟩).length = 1 := by
  have hsum := normalize_sq_sum dx dy h
  have hlen : (Vector2.mk (-(Vector2.normalize ⟨dx, dy⟩).y)
      ((Vector2.normalize ⟨dx, dy⟩).x)).length = 1 := by
    apply length_eq_one
    simp only []
    nlinarith [hsum]
  rw [normalize_of_unit _ hlen]
  exact hlen

lemma makeNormals_shape (click : Bool) (front : List FilteredPoint) (c : FilteredPoint) :
    ∃ n, makeNormals click (front ++ [c]) = front ++ [{ c with normal := n }] := by
  cases click with
  | true => exact ⟨c.normal, by simp [makeNormals]⟩
  | false =>
    rw [makeNormals]
    simp only [if_pos rfl]
    rw [List.getLast?_concat, List.dropLast_concat]
    cases hf : front.getLast? with
    | none => exact ⟨c.normal, by simp⟩
    | some lastFP =>
      refine ⟨_, rfl⟩

lemma makeNormals_two (front : List FilteredPoint) (prev c : FilteredPoint) :
    makeNormals false ((front ++ [prev]) ++ [c]) =
      (front ++ [prev]) ++ [{ c with normal := perpNormal (c.x - prev.x) (c.y - prev.y) }] := by
  rw [makeNormals]
  rw [List.getLast?_concat, List.dropLast_concat, List.getLast?_concat]
  rfl

lemma makeNormals_single (click : Bool) (c : FilteredPoint) :
    makeNormals click [c] = [c] := by
  have h := makeNormals_shape click [] c
  cases click with
  | true => simp [makeNormals]
  | false =>
    rw [makeNormals]
    simp only [if_pos rfl]
    rfl

lemma cons_concat_getLast? {α : Type} (a : α) (mid : List α) (t : α) :
    (a :: (mid ++ [t])).getLast? = some t := by
  rw [← List.cons_append, List.getLast?_concat]

lemma cons_concat_dropLast {α : Type} (a : α) (mid : List α) (t : α) :
    (a :: (mid ++ [t])).dropLast = a :: mid := by
  rw [← List.cons_append, List.dropLast_concat]

lemma onSessionUpdate_some (sess : PointerSession) (click : Bool) (ps : List FilteredPoint) :
    onSessionUpdate ⟨some sess, click, ps⟩ =
      match sess.inputData.getLast? with
      | none => none
      | some currentInput =>
        match filterPhase ps (mkCandidate currentInput sess.traveledDistance) with
        | none => none
        | some pts =>
          some ⟨some sess, if sess.traveledDistance > MIN_SWIPE_THRESHOLD then false else click,
            makeNormals (if sess.traveledDistance > MIN_SWIPE_THRESHOLD then false else click) pts⟩ :=
  rfl

lemma filterPhase_nil (fp : FilteredPoint) :
    filterPhase [] fp = some [{ fp with isStart := true }] :=
  rfl

lemma filterPhase_anchor (a : FilteredPoint) (fp : FilteredPoint)
    (hS : a.isStart = true) (hEnd : a.isEnd = true) :
    filterPhase [a] fp = some [{ a with isEnd := false }, fp] := by
  rw [filterPhase]
  simp [hS, hEnd]

lemma filterPhase_append (a : FilteredPoint) (mid : List FilteredPoint) (t : FilteredPoint)
    (fp : FilteredPoint) (ld : FilteredPoint)
    (hld : (a :: mid).getLast? = some ld)
    (hS : t.isStart = false) (hEnd : t.isEnd = true)
    (hgt : fp.traveledDistance - ld.traveledDistance > MIN_SWIPE_SEG) :
    filterPhase (a :: (mid ++ [t])) fp =
      some ((a :: mid) ++ [{ t with isEnd := false }, fp]) := by
  rw [filterPhase, cons_concat_getLast?]
  simp [hS, hEnd, cons_concat_dropLast, hld, hgt]

lemma filterPhase_overwrite (a : FilteredPoint) (mid : List FilteredPoint) (t : FilteredPoint)
    (fp : FilteredPoint) (ld : FilteredPoint)
    (hld : (a :: mid).getLast? = some ld)
    (hS : t.isStart = false) (hEnd : t.isEnd = true)
    (hle : ¬(fp.traveledDistance - ld.traveledDistance > MIN_SWIPE_SEG)) :
    filterPhase (a :: (mid ++ [t])) fp = some ((a :: mid) ++ [fp]) := by
  rw [filterPhase, cons_concat_getLast?]
  simp [hS, hEnd, cons_concat_dropLast, hld, hle]

lemma cons_concat2_getLast? {α : Type} (a : α) (mid : List α) (p q : α) :
    (a :: (mid ++ [p, q])).getLast? = some q := by
  rw [show mid ++ [p, q] = (mid ++ [p]) ++ [q] by simp]
  exact cons_concat_getLast? a (mid ++ [p]) q

lemma onSessionUpdate_red (sess : PointerSession) (click : Bool) (ps : List FilteredPoint)
    (e : InputEvent) (hE : sess.inputData.getLast? = some e) :
    onSessionUpdate ⟨some sess, click, ps⟩ =
      match filterPhase ps (mkCandidate e sess.traveledDistance) with
      | none => none
      | some pts =>
        some ⟨some sess, if sess.traveledDistance > MIN_SWIPE_THRESHOLD then false else click,
          makeNormals (if sess.traveledDistance > MIN_SWIPE_THRESHOLD then false else click) pts⟩ := by
  rw [onSessionUpdate_some, hE]

lemma update_step (sess : PointerSession) (click : Bool) (ps : List FilteredPoint) (e : InputEvent)
    (hE : sess.inputData.getLast? = some e) (hInv : PolyInv ps) :
    ∃ ps', onSessionUpdate ⟨some sess, click, ps⟩ =
        some ⟨some sess, if sess.traveledDistance > MIN_SWIPE_THRESHOLD then false else click, ps'⟩ ∧
      PolyInv ps' ∧
      (∃ t, ps'.getLast? = some t ∧ t.x = e.center.x ∧ t.y = e.center.y) ∧
      (∀ a0, ps.head? = some a0 → ∃ a1, ps'.head? = some a1 ∧ a1.isStart = a0.isStart ∧
        a1.x = a0.x ∧ a1.y = a0.y) := by
  rw [onSessionUpdate_red sess click ps e hE]
  set click2 := if sess.traveledDistance > MIN_SWIPE_THRESHOLD then false else click with hc2
  set cand := mkCandidate e sess.traveledDistance with hcand
  rcases hInv with ⟨a, hps, haS, haE⟩ | ⟨a, mid, t, hps, haS, haE, hmid, htS, htE⟩
  · subst hps
    rw [filterPhase_anchor a cand haS haE]
    obtain ⟨n, hn⟩ := makeNormals_shape click2 [{ a with isEnd := false }] cand
    have hmk : makeNormals click2 [{ a with isEnd := false }, cand] =
        [{ a with isEnd := false }, { cand with normal := n }] := by
      rw [show [{ a with isEnd := false }, cand] =
        [{ a with isEnd := false }] ++ [cand] by simp, hn]
      simp
    refine ⟨_, rfl, ?_, ?_, ?_⟩
    · rw [hmk]
      refine Or.inr ⟨{ a with isEnd := false }, [], { cand with normal := n }, by simp, by simp [haS],
        by simp, by simp, by simp [hcand, mkCandidate], by simp [hcand, mkCandidate]⟩
    · rw [hmk]
      refine ⟨{ cand with normal := n }, by simp, by simp [hcand, mkCandidate],
        by simp [hcand, mkCandidate]⟩
    · intro a0 ha0
      simp only [List.head?_cons, Option.some.injEq] at ha0
      subst ha0
      rw [hmk]
      exact ⟨{ a with isEnd := false }, by simp, by simp, by simp, by simp⟩
  · subst hps
    obtain ⟨ld, hld⟩ : ∃ ld, (a :: mid).getLast? = some ld := by
      cases h : (a :: mid).getLast? with
      | none => exact absurd (List.getLast?_eq_none_iff.mp h) (List.cons_ne_nil a mid)
      | some ld => exact ⟨ld, rfl⟩
    by_cases hgt : cand.traveledDistance - ld.traveledDistance > MIN_SWIPE_SEG
    · rw [filterPhase_append a mid t cand ld hld htS htE hgt]
      obtain ⟨n, hn⟩ := makeNormals_shape click2 ((a :: mid) ++ [{ t with isEnd := false }]) cand
      have hmk : makeNormals click2 ((a :: mid) ++ [{ t with isEnd := false }, cand]) =
          ((a :: mid) ++ [{ t with isEnd := false }]) ++ [{ cand with normal := n }] := by
        rw [← hn]; congr 1; simp
      refine ⟨_, rfl, ?_, ?_, ?_⟩
      · rw [hmk]
        refine Or.inr ⟨a, mid ++ [{ t with isEnd := false }], { cand with normal := n },
          by simp, haS, haE, ?_, by simp [hcand, mkCandidate], by simp [hcand, mkCandidate]⟩
        intro p hp
        rcases List.mem_append.mp hp with hpm | hpt
        · exact hmid p hpm
        · simp only [List.mem_singleton] at hpt
          subst hpt
          exact ⟨by simp [htS], by simp⟩
      · rw [hmk]
        refine ⟨{ cand with normal := n },
          by simp [List.getLast?_concat, cons_concat_getLast?, cons_concat2_getLast?],
          by simp [hcand, mkCandidate], by simp [hcand, mkCandidate]⟩
      · intro a0 ha0
        simp only [List.head?_cons, Option.some.injEq] at ha0
        subst ha0
        rw [hmk]
        exact ⟨a, by simp, rfl, rfl, rfl⟩
    · rw [filterPhase_overwrite a mid t cand ld hld htS htE hgt]
      obtain ⟨n, hn⟩ := makeNormals_shape click2 (a :: mid) cand
      refine ⟨_, rfl, ?_, ?_, ?_⟩
      · rw [hn]
        refine Or.inr ⟨a, mid, { cand with normal := n }, by simp, haS, haE, hmid,
          by simp [hcand, mkCandidate], by simp [hcand, mkCandidate]⟩
      · rw [hn]
        refine ⟨{ cand with normal := n },
          by simp [List.getLast?_concat, cons_concat_getLast?, cons_concat2_getLast?],
          by simp [hcand, mkCandidate], by simp [hcand, mkCandidate]⟩
      · intro a0 ha0
        simp only [List.head?_cons, Option.some.injEq] at ha0
        subst ha0
        rw [hn]
        exact ⟨a, by simp, rfl, rfl, rfl⟩

lemma update_nil (sess : PointerSession) (click : Bool) (e : InputEvent)
    (hE : sess.inputData.getLast? = some e) :
    onSessionUpdate ⟨some sess, click, []⟩ =
      some ⟨some sess, if sess.traveledDistance > MIN_SWIPE_THRESHOLD then false else click,
        [{ mkCandidate e sess.traveledDistance with isStart := true }]⟩ := by
  rw [onSessionUpdate_red sess click [] e hE, filterPhase_nil]
  show some
      (⟨some sess, if sess.traveledDistance > MIN_SWIPE_THRESHOLD then false else click,
        makeNormals (if sess.traveledDistance > MIN_SWIPE_THRESHOLD then false else click)
          [{ mkCandidate e sess.traveledDistance with isStart := true }]⟩ : EffectState) = _
  rw [makeNormals_single]

lemma addInputPoint_getLast (ss : PointerSession) (e : InputEvent) (h : ss.isEnded = false) :
    (ss.addInputPoint e).inputData.getLast? = some e := by
  rw [PointerSession.addInputPoint, if_neg (by simp [h])]
  exact List.getLast?_concat _

lemma addInputPoint_ended_flag (ss : PointerSession) (e : InputEvent) (h : ss.isEnded = false) :
    (ss.addInputPoint e).isEnded = e.isFinal := by
  rw [PointerSession.addInputPoint, if_neg (by simp [h])]

lemma addInputPoint_empty (e : InputEvent) :
    PointerSession.empty.addInputPoint e = ⟨[e], 0, e.isFinal⟩ := by
  rw [PointerSession.addInputPoint]
  simp [PointerSession.empty]

lemma handleInput_first (s : EffectState) (e : InputEvent) (hF : e.isFirst = true) :
    handleInput s e = onSessionUpdate ⟨some (PointerSession.empty.addInputPoint e), true, []⟩ := by
  cases hs : s.currentSession with
  | none => simp [handleInput, hs, hF, onSessionStart]
  | some old => simp [handleInput, hs, hF, onSessionStart]

lemma handleInput_next (s : EffectState) (old : PointerSession) (e : InputEvent)
    (hs : s.currentSession = some old) (hF : e.isFirst = false) :
    handleInput s e =
      onSessionUpdate ⟨some (old.addInputPoint e), s.isClick, s.filteredPoints⟩ := by
  simp [handleInput, hs, hF]

lemma handleInput_nosession (s : EffectState) (e : InputEvent)
    (hs : s.currentSession = none) (hF : e.isFirst = false) :
    handleInput s e =
      onSessionUpdate
        ⟨some (PointerSession.empty.addInputPoint e), s.isClick, s.filteredPoints⟩ := by
  simp [handleInput, hs, hF]

lemma handle_first (s0 : EffectState) (e : InputEvent) (hF : e.isFirst = true) :
    ∃ s1, handleInput s0 e = some s1 ∧ RunInv s1 e e := by
  rw [handleInput_first s0 e hF, addInputPoint_empty,
    update_nil ⟨[e], 0, e.isFinal⟩ _ e (by simp)]
  refine ⟨_, rfl, ?_⟩
  refine ⟨⟨[e], 0, e.isFinal⟩, rfl, by simp, rfl, ?_, ?_, ?_⟩
  · exact Or.inl ⟨_, rfl, rfl, rfl⟩
  · exact ⟨_, rfl, rfl, rfl⟩
  · exact ⟨_, rfl, rfl, rfl, rfl⟩

lemma handle_next (s : EffectState) (firstE lastE e : InputEvent)
    (hInv : RunInv s firstE lastE) (hF : e.isFirst = false) (hNF : lastE.isFinal = false) :
    ∃ s', handleInput s e = some s' ∧ RunInv s' firstE e := by
  obtain ⟨sess, hsess, hlast, hend, hpoly, ⟨t, ht, htx, hty⟩, ⟨a, ha, haS, hax, hay⟩⟩ := hInv
  rw [handleInput_next s sess e hsess hF]
  have hlive : sess.isEnded = false := by rw [hend, hNF]
  have hE : (sess.addInputPoint e).inputData.getLast? = some e :=
    addInputPoint_getLast sess e hlive
  obtain ⟨ps', hup, hpoly', htail', hhead'⟩ :=
    update_step (sess.addInputPoint e) s.isClick s.filteredPoints e hE hpoly
  refine ⟨_, hup, sess.addInputPoint e, rfl, hE,
    addInputPoint_ended_flag sess e hlive, hpoly', htail', ?_⟩
  obtain ⟨a1, ha1, ha1S, ha1x, ha1y⟩ := hhead' a ha
  exact ⟨a1, ha1, by rw [ha1S, haS], by rw [ha1x, hax], by rw [ha1y, hay]⟩

lemma getLast?_getD_cons {α : Type} (e : α) (es : List α) (d : α) :
    (e :: es).getLast?.getD d = es.getLast?.getD e := by
  cases es with
  | nil => rfl
  | cons b bs =>
    obtain ⟨v, hv⟩ : ∃ v, (b :: bs).getLast? = some v :=
      ⟨_, List.getLast?_eq_getLast _ (List.cons_ne_nil b bs)⟩
    rw [List.getLast?_cons_cons, hv]
    rfl

lemma run_preserve : ∀ (es : List InputEvent) (s : EffectState) (firstE lastE : InputEvent),
    RunInv s firstE lastE →
    (∀ x ∈ es, x.isFirst = false) →
    (∀ x ∈ (lastE :: es).dropLast, x.isFinal = false) →
    ∃ s', runEvents s es = some s' ∧ RunInv s' firstE (es.getLast?.getD lastE) := by
  intro es
  induction es with
  | nil => exact fun s firstE lastE hInv _ _ => ⟨s, rfl, hInv⟩
  | cons e es ih =>
    intro s firstE lastE hInv hF hNF
    have hlf : lastE.isFinal = false := by
      apply hNF lastE
      rw [List.dropLast_cons₂]
      exact List.mem_cons_self _ _
    obtain ⟨s1, h1, hInv1⟩ := handle_next s firstE lastE e hInv (hF e (by simp)) hlf
    have hF' : ∀ x ∈ es, x.isFirst = false := fun x hx => hF x (by simp [hx])
    have hNF' : ∀ x ∈ (e :: es).dropLast, x.isFinal = false := by
      intro x hx
      apply hNF x
      rw [List.dropLast_cons₂]
      exact List.mem_cons_of_mem _ hx
    obtain ⟨s', hrun, hInv'⟩ := ih s1 firstE e hInv1 hF' hNF'
    refine ⟨s', ?_, ?_⟩
    · rw [runEvents, h1]
      exact hrun
    · rw [show ((e :: es).getLast?.getD lastE) = es.getLast?.getD e from getLast?_getD_cons e es lastE]
      exact hInv'

lemma polyInv_ne (ps : List FilteredPoint) (h : PolyInv ps) : ps ≠ [] := by
  rcases h with ⟨a, hps, _, _⟩ | ⟨a, mid, t, hps, _⟩ <;> subst hps <;> simp

lemma polyInv_count_start (ps : List FilteredPoint) (h : PolyInv ps) :
    (ps.filter fun p => p.isStart).length = 1 := by
  rcases h with ⟨a, hps, haS, _⟩ | ⟨a, mid, t, hps, haS, _, hmid, htS, _⟩
  · subst hps; simp [haS]
  · subst hps
    have hm : mid.filter (fun p => p.isStart) = [] :=
      List.filter_eq_nil_iff.mpr (fun p hp => by simp [(hmid p hp).1])
    simp [List.filter_cons, List.filter_append, haS, htS, hm]

lemma polyInv_count_end (ps : List FilteredPoint) (h : PolyInv ps) :
    (ps.filter fun p => p.isEnd).length = 1 := by
  rcases h with ⟨a, hps, _, haE⟩ | ⟨a, mid, t, hps, _, haE, hmid, _, htE⟩
  · subst hps; simp [haE]
  · subst hps
    have hm : mid.filter (fun p => p.isEnd) = [] :=
      List.filter_eq_nil_iff.mpr (fun p hp => by simp [(hmid p hp).2])
    simp [List.filter_cons, List.filter_append, haE, htE, hm]

lemma polyInv_last_end (ps : List FilteredPoint) (h : PolyInv ps) :
    ∃ t, ps.getLast? = some t ∧ t.isEnd = true := by
  rcases h with ⟨a, hps, _, haE⟩ | ⟨a, mid, t, hps, _, _, _, _, htE⟩
  · subst hps; exact ⟨a, rfl, haE⟩
  · subst hps; exact ⟨t, cons_concat_getLast? a mid t, htE⟩

lemma session_run (e1 : InputEvent) (rest pre suf : List InputEvent) (s0 : EffectState)
    (h1 : e1.isFirst = true)
    (hrest : ∀ x ∈ rest, x.isFirst = false)
    (hfin : ∀ x ∈ (e1 :: rest).dropLast, x.isFinal = false)
    (hsplit : rest = pre ++ suf) :
    ∃ s', runEvents s0 (e1 :: pre) = some s' ∧ RunInv s' e1 (pre.getLast?.getD e1) := by
  obtain ⟨s1, hh1, hInv1⟩ := handle_first s0 e1 h1
  have hFpre : ∀ x ∈ pre, x.isFirst = false :=
    fun x hx => hrest x (hsplit ▸ List.mem_append_left _ hx)
  have hNFpre : ∀ x ∈ (e1 :: pre).dropLast, x.isFinal = false := by
    intro x hx
    apply hfin x
    cases suf with
    | nil =>
      rw [hsplit]
      simpa using hx
    | cons b bs =>
      have hx' : x ∈ e1 :: pre := List.dropLast_subset _ hx
      rw [hsplit, show e1 :: (pre ++ b :: bs) = (e1 :: pre) ++ (b :: bs) by simp,
        List.dropLast_append_of_ne_nil (e1 :: pre) (by simp)]
      exact List.mem_append_left _ hx'
  obtain ⟨s', hrun, hInv'⟩ := run_preserve pre s1 e1 e1 hInv1 hFpre hNFpre
  refine ⟨s', ?_, hInv'⟩
  rw [runEvents, hh1]
  exact hrun

/-- Claim C2: for every sequence of samples processed within one session (the
first sample flagged first, later samples not, no sample before the last
flagged final), after every processed sample (every prefix `e1 :: pre` of
the session's sample list) the filtered-point sequence has at least one
point, exactly one point with `isStart`, exactly one point with `isEnd`
(which is the last element), and the last element's position equals the most
recent sample's center position. -/
theorem c2_update_invariants (e1 : InputEvent) (rest pre suf : List InputEvent)
    (s0 : EffectState)
    (h1 : e1.isFirst = true)
    (hrest : ∀ x ∈ rest, x.isFirst = false)
    (hfin : ∀ x ∈ (e1 :: rest).dropLast, x.isFinal = false)
    (hsplit : rest = pre ++ suf) :
    ∃ s', runEvents s0 (e1 :: pre) = some s' ∧
      s'.filteredPoints ≠ [] ∧
      (s'.filteredPoints.filter fun p => p.isStart).length = 1 ∧
      (s'.filteredPoints.filter fun p => p.isEnd).length = 1 ∧
      (∃ t, s'.filteredPoints.getLast? = some t ∧ t.isEnd = true ∧
        t.x = (pre.getLast?.getD e1).center.x ∧ t.y = (pre.getLast?.getD e1).center.y) := by
  obtain ⟨s', hrun, sess, hsess, hlastE, hend, hpoly, ⟨t, ht, htx, hty⟩, hhead⟩ :=
    session_run e1 rest pre suf s0 h1 hrest hfin hsplit
  refine ⟨s', hrun, polyInv_ne _ hpoly, polyInv_count_start _ hpoly,
    polyInv_count_end _ hpoly, ?_⟩
  obtain ⟨t2, ht2, ht2E⟩ := polyInv_last_end _ hpoly
  rw [ht] at ht2
  obtain rfl : t = t2 := Option.some_injective _ ht2
  exact ⟨t, ht, ht2E, htx, hty⟩

/-- Witness for C2 at a concrete one-sample session starting at the origin. -/
theorem c2_update_invariants_witness :
    ∃ s', runEvents initialState [⟨⟨0, 0⟩, true, false⟩] = some s' ∧
      s'.filteredPoints ≠ [] ∧
      (s'.filteredPoints.filter fun p => p.isStart).length = 1 ∧
      (s'.filteredPoints.filter fun p => p.isEnd).length = 1 ∧
      (∃ t, s'.filteredPoints.getLast? = some t ∧ t.isEnd = true ∧
        t.x = (([] : List InputEvent).getLast?.getD ⟨⟨0, 0⟩, true, false⟩).center.x ∧
        t.y = (([] : List InputEvent).getLast?.getD ⟨⟨0, 0⟩, true, false⟩).center.y) :=
  c2_update_invariants ⟨⟨0, 0⟩, true, false⟩ [] [] [] initialState rfl
    (by simp) (by simp) (by simp)

/-- Claim C3: within one session, the anchor (first accepted filtered point)
is never removed or replaced: after every processed sample the head of the
filtered-point sequence still has `isStart = true` and its position equals
the first sample's center position. -/
theorem c3_anchor_preserved (e1 : InputEvent) (rest pre suf : List InputEvent)
    (s0 : EffectState)
    (h1 : e1.isFirst = true)
    (hrest : ∀ x ∈ rest, x.isFirst = false)
    (hfin : ∀ x ∈ (e1 :: rest).dropLast, x.isFinal = false)
    (hsplit : rest = pre ++ suf) :
    ∃ s', runEvents s0 (e1 :: pre) = some s' ∧
      ∃ a, s'.filteredPoints.head? = some a ∧ a.isStart = true ∧
        a.x = e1.center.x ∧ a.y = e1.center.y := by
  obtain ⟨s', hrun, sess, hsess, hlastE, hend, hpoly, htail, hhead⟩ :=
    session_run e1 rest pre suf s0 h1 hrest hfin hsplit
  exact ⟨s', hrun, hhead⟩

/-- Witness for C3 at a concrete two-sample session starting at (1, 2). -/
theorem c3_anchor_preserved_witness :
    ∃ s', runEvents ⟨none, true, []⟩
        [⟨⟨1, 2⟩, true, false⟩, ⟨⟨3, 4⟩, false, true⟩] = some s' ∧
      ∃ a, s'.filteredPoints.head? = some a ∧ a.isStart = true ∧
        a.x = (⟨⟨1, 2⟩, true, false⟩ : InputEvent).center.x ∧
        a.y = (⟨⟨1, 2⟩, true, false⟩ : InputEvent).center.y :=
  c3_anchor_preserved ⟨⟨1, 2⟩, true, false⟩ [⟨⟨3, 4⟩, false, true⟩]
    [⟨⟨3, 4⟩, false, true⟩] [] ⟨none, true, []⟩ rfl
    (by simp) (by simp) (by simp)

/-- Claim C1: for every update on a non-empty filtered sequence whose tail is
not the anchor (so `lastDetermined` is the point immediately before the
tail), if `distanceDelta = candidate.traveledDistance -
lastDetermined.traveledDistance` exceeds `MIN_SWIPE_SEG = 50` (the tail's
`isStart` disjunct being false here), the tail's `isEnd` flag is cleared and
the candidate is appended, growing the sequence by exactly one; otherwise
the tail is overwritten in place by the candidate and the length is
unchanged. -/
theorem c1_commit_or_overwrite (sess : PointerSession) (click : Bool)
    (init : List FilteredPoint) (tail ld : FilteredPoint) (e : InputEvent)
    (hE : sess.inputData.getLast? = some e)
    (hld : init.getLast? = some ld)
    (hEnd : tail.isEnd = true) (hStart : tail.isStart = false) :
    (sess.traveledDistance - ld.traveledDistance > MIN_SWIPE_SEG →
      ∃ s' n, onSessionUpdate ⟨some sess, click, init ++ [tail]⟩ = some s' ∧
        s'.filteredPoints =
          init ++ [{ tail with isEnd := false },
            { mkCandidate e sess.traveledDistance with normal := n }] ∧
        s'.filteredPoints.length = (init ++ [tail]).length + 1) ∧
    (¬(sess.traveledDistance - ld.traveledDistance > MIN_SWIPE_SEG) →
      ∃ s' n, onSessionUpdate ⟨some sess, click, init ++ [tail]⟩ = some s' ∧
        s'.filteredPoints =
          init ++ [{ mkCandidate e sess.traveledDistance with normal := n }] ∧
        s'.filteredPoints.length = (init ++ [tail]).length) := by
  cases init with
  | nil => simp at hld
  | cons a mid =>
  rw [onSessionUpdate_red sess click ((a :: mid) ++ [tail]) e hE]
  constructor
  · intro hgt
    rw [show (a :: mid) ++ [tail] = a :: (mid ++ [tail]) by simp,
      filterPhase_append a mid tail (mkCandidate e sess.traveledDistance) ld hld hStart hEnd hgt]
    obtain ⟨n, hn⟩ := makeNormals_shape
      (if sess.traveledDistance > MIN_SWIPE_THRESHOLD then false else click)
      ((a :: mid) ++ [{ tail with isEnd := false }]) (mkCandidate e sess.traveledDistance)
    have hmk : makeNormals (if sess.traveledDistance > MIN_SWIPE_THRESHOLD then false else click)
        ((a :: mid) ++ [{ tail with isEnd := false }, mkCandidate e sess.traveledDistance]) =
        ((a :: mid) ++ [{ tail with isEnd := false }]) ++
          [{ mkCandidate e sess.traveledDistance with normal := n }] := by
      rw [← hn]; congr 1; simp
    refine ⟨_, n, rfl, ?_, ?_⟩
    · show makeNormals _ _ = _
      rw [hmk]; simp
    · show (makeNormals _ _).length = _
      rw [hmk]; simp
  · intro hle
    rw [show (a :: mid) ++ [tail] = a :: (mid ++ [tail]) by simp,
      filterPhase_overwrite a mid tail (mkCandidate e sess.traveledDistance) ld hld hStart hEnd hle]
    obtain ⟨n, hn⟩ := makeNormals_shape
      (if sess.traveledDistance > MIN_SWIPE_THRESHOLD then false else click)
      (a :: mid) (mkCandidate e sess.traveledDistance)
    refine ⟨_, n, rfl, ?_, ?_⟩
    · show makeNormals _ _ = _
      rw [hn]
    · show (makeNormals _ _).length = _
      rw [hn]; simp

lemma add1 : PointerSession.empty.addInputPoint e41 = sess41 := by
  simp [PointerSession.addInputPoint, PointerSession.empty, sess41, e41]

lemma add2 : sess41.addInputPoint e42 = sess42 := by
  simp only [PointerSession.addInputPoint, sess41, sess42, e41, e42]
  norm_num [List.getLast?]
  exact sqrt_num 5 25 (by norm_num) (by norm_num)

lemma add3 : sess42.addInputPoint e43 = sess43 := by
  simp only [PointerSession.addInputPoint, sess42, sess43, e41, e42, e43]
  norm_num [List.getLast?]
  rw [sqrt_num 55 3025 (by norm_num) (by norm_num)]
  norm_num

lemma add4 : sess43.addInputPoint e44 = sess44 := by
  simp only [PointerSession.addInputPoint, sess43, sess44, e41, e42, e43, e44]
  norm_num [List.getLast?]
  rw [sqrt_num 5 25 (by norm_num) (by norm_num)]
  norm_num

lemma add51 : PointerSession.empty.addInputPoint e51 = sess51 := by
  simp [PointerSession.addInputPoint, PointerSession.empty, sess51, e51]

lemma add52 : sess51.addInputPoint e52 = sess52 := by
  simp only [PointerSession.addInputPoint, sess51, sess52, e51, e52]
  norm_num [List.getLast?]
  exact sqrt_num 3 9 (by norm_num) (by norm_num)

lemma norm_55 : Vector2.normalize ⟨55, 0⟩ = ⟨1, 0⟩ := by
  rw [Vector2.normalize]
  rw [show Vector2.length ⟨55, 0⟩ = 55 by
    rw [Vector2.length]; exact sqrt_num 55 _ (by norm_num) (by norm_num)]
  norm_num

lemma norm_5 : Vector2.normalize ⟨5, 0⟩ = ⟨1, 0⟩ := by
  rw [Vector2.normalize]
  rw [show Vector2.length ⟨5, 0⟩ = 5 by
    rw [Vector2.length]; exact sqrt_num 5 _ (by norm_num) (by norm_num)]
  norm_num

lemma norm_01 : Vector2.normalize ⟨0, 1⟩ = ⟨0, 1⟩ := by
  rw [Vector2.normalize]
  rw [show Vector2.length ⟨0, 1⟩ = 1 by
    rw [Vector2.length]; exact sqrt_num 1 _ (by norm_num) (by norm_num)]
  norm_num

lemma step41 : handleInput initialState e41 = some S41 := by
  simp only [handleInput, initialState, add1]
  norm_num [e41, onSessionStart, onSessionUpdate, sess41, MIN_SWIPE_THRESHOLD,
    filterPhase, makeNormals, mkCandidate, S41, A1, List.getLast?]

lemma step42 : handleInput S41 e42 = some S42 := by
  simp only [handleInput, S41, add2]
  norm_num [e42, onSessionUpdate, sess42, MIN_SWIPE_THRESHOLD, MIN_SWIPE_SEG,
    filterPhase, makeNormals, mkCandidate, S42, A1, B2, List.getLast?]

lemma upd3 : onSessionUpdate ⟨some sess43, true, [{ A1 with isEnd := false }, B2]⟩ =
    some S43 := by
  norm_num [onSessionUpdate, sess43, MIN_SWIPE_THRESHOLD, MIN_SWIPE_SEG,
    filterPhase, makeNormals, mkCandidate, S43, A1, B2, C3p, e43, List.getLast?,
    List.dropLast, norm_55, norm_01]

lemma step43 : handleInput S42 e43 = some S43 := by
  rw [handleInput_next S42 sess42 e43 rfl rfl, add3]
  exact upd3

lemma step44 : handleInput S43 e44 = some S44 := by
  simp only [handleInput, S43, add4]
  norm_num [e44, onSessionUpdate, sess44, MIN_SWIPE_THRESHOLD, MIN_SWIPE_SEG,
    filterPhase, makeNormals, mkCandidate, S44, A1, B2, C3p, D4, List.getLast?,
    List.dropLast, norm_5, norm_01]

lemma step51 : handleInput initialState e51 = some S51 := by
  simp only [handleInput, initialState, add51]
  norm_num [e51, onSessionStart, onSessionUpdate, sess51, MIN_SWIPE_THRESHOLD,
    filterPhase, makeNormals, mkCandidate, S51, A5, List.getLast?]

lemma step52 : handleInput S51 e52 = some S52 := by
  simp only [handleInput, S51, add52]
  norm_num [e52, onSessionUpdate, sess52, MIN_SWIPE_THRESHOLD, MIN_SWIPE_SEG,
    filterPhase, makeNormals, mkCandidate, S52, A5, B5, List.getLast?]

lemma c4_run : runEvents initialState [e41, e42, e43, e44] = some S44 := by
  simp [runEvents, step41, step42, step43, step44]

lemma c5_run : runEvents initialState [e51, e52] = some S52 := by
  simp [runEvents, step51, step52]

lemma upd9 : onSessionUpdate S9 = some ⟨some sess9, false, [P9a, mkCandidate e9 20]⟩ := by
  norm_num [onSessionUpdate, S9, sess9, MIN_SWIPE_THRESHOLD, MIN_SWIPE_SEG,
    filterPhase, makeNormals, mkCandidate, P9a, P9t, e9, List.getLast?,
    List.dropLast, vec_normalize_zero]

/-- Counterexample to claim C4: running the scenario (0,0)[first], (5,0),
(60,0), (65,0)[final] yields FOUR filtered points — (5,0) is appended by the
anchor-tail branch and then locked in at sample 3 — so the sequence is not
the claimed three-point list. -/
theorem c4_counterexample :
    ∃ s', runEvents initialState [e41, e42, e43, e44] = some s' ∧
      (s'.filteredPoints.map fun p => (p.x, p.y, p.isStart, p.isEnd)) =
        [((0:ℝ), (0:ℝ), true, false), (5, 0, false, false),
         (60, 0, false, false), (65, 0, false, true)] ∧
      s'.filteredPoints.length ≠ 3 :=
  ⟨S44, c4_run, by norm_num [S44, A1, B2, C3p, D4], by norm_num [S44]⟩

/-- Claim C4 (amended): for the input sample sequence (0,0)[first], (5,0),
(60,0), (65,0)[final] (Euclidean cumulative distances 0, 5, 60, 65), the
resulting filtered sequence is exactly the four points
(0,0,isStart), (5,0), (60,0), (65,0,isEnd), the click flag is false, and the
tail's normal is exactly (0,1). -/
theorem c4_amended_scenario :
    ∃ s', runEvents initialState [e41, e42, e43, e44] = some s' ∧
      (s'.filteredPoints.map fun p => (p.x, p.y, p.isStart, p.isEnd)) =
        [((0:ℝ), (0:ℝ), true, false), (5, 0, false, false),
         (60, 0, false, false), (65, 0, false, true)] ∧
      s'.isClick = false ∧
      (∃ t, s'.filteredPoints.getLast? = some t ∧ t.normal = ⟨0, 1⟩) :=
  ⟨S44, c4_run, by norm_num [S44, A1, B2, C3p, D4], rfl, ⟨D4, rfl, rfl⟩⟩

/-- Counterexample to claim C5: running the scenario (0,0)[first],
(3,0)[final] yields TWO filtered points — the candidate is appended because
the tail is the anchor (`lastFiltered.isStart` branch), not collapsed into
it — so the sequence is not the claimed singleton. -/
theorem c5_counterexample :
    ∃ s', runEvents initialState [e51, e52] = some s' ∧
      (s'.filteredPoints.map fun p => (p.x, p.y, p.isStart, p.isEnd)) =
        [((0:ℝ), (0:ℝ), true, false), (3, 0, false, true)] ∧
      s'.filteredPoints.length ≠ 1 :=
  ⟨S52, c5_run, by norm_num [S52, A5, B5], by norm_num [S52]⟩

/-- Claim C5 (amended): for the input sample sequence (0,0)[first],
(3,0)[final] (cumulative distance 3 < 10), the click flag remains true and
no normal is computed (all normals stay zero), but the filtered sequence is
the two-point list (0,0,isStart), (3,0,isEnd) rather than the single anchor. -/
theorem c5_amended_scenario :
    ∃ s', runEvents initialState [e51, e52] = some s' ∧
      s'.isClick = true ∧
      (s'.filteredPoints.map fun p => (p.x, p.y, p.isStart, p.isEnd)) =
        [((0:ℝ), (0:ℝ), true, false), (3, 0, false, true)] ∧
      (∀ p ∈ s'.filteredPoints, p.normal = ⟨0, 0⟩) := by
  refine ⟨S52, c5_run, rfl, by norm_num [S52, A5, B5], ?_⟩
  intro p hp
  simp only [S52, List.mem_cons, List.not_mem_nil, or_false] at hp
  rcases hp with rfl | rfl
  · rfl
  · rfl

lemma makeNormals_id_true (pts : List FilteredPoint) : makeNormals true pts = pts := by
  simp [makeNormals]

lemma update_characterize (s : EffectState) (sess : PointerSession) (s' : EffectState)
    (hsess : s.currentSession = some sess) (h : onSessionUpdate s = some s') :
    ∃ e pts, sess.inputData.getLast? = some e ∧
      filterPhase s.filteredPoints (mkCandidate e sess.traveledDistance) = some pts ∧
      s' = ⟨some sess, if sess.traveledDistance > MIN_SWIPE_THRESHOLD then false else s.isClick,
        makeNormals (if sess.traveledDistance > MIN_SWIPE_THRESHOLD then false else s.isClick)
          pts⟩ := by
  obtain ⟨cs, ic, fp⟩ := s
  have hcs : cs = some sess := hsess
  subst hcs
  rw [onSessionUpdate_some] at h
  split at h
  · exact Option.noConfusion h
  · split at h
    · exact Option.noConfusion h
    · injection h with h
      refine ⟨_, _, by assumption, by assumption, h.symm⟩

lemma filterPhase_shape (ps : List FilteredPoint) (fp : FilteredPoint)
    (pts : List FilteredPoint) (h : filterPhase ps fp = some pts) :
    ∃ front b, pts = front ++ [{ fp with isStart := b }] := by
  rw [filterPhase] at h
  split at h
  · injection h with h
    exact ⟨[], true, by rw [← h]; simp⟩
  · split at h
    · exact Option.noConfusion h
    · split at h
      · rename_i x1 lastFP heq1 x2 ld heq2 hcond
        injection h with h
        exact ⟨ps.dropLast ++ [{ lastFP with isEnd := false }], fp.isStart,
          by rw [← h]; simp⟩
      · injection h with h
        exact ⟨ps.dropLast, fp.isStart, by rw [← h]⟩

lemma makeNormals_tail (click : Bool) (front : List FilteredPoint) (c cur : FilteredPoint)
    (hcur : (makeNormals click (front ++ [c])).getLast? = some cur) :
    (∀ prev, click = false →
      (makeNormals click (front ++ [c])).dropLast.getLast? = some prev →
      cur.normal = perpNormal (cur.x - prev.x) (cur.y - prev.y)) ∧
    ((click = true ∨ (makeNormals click (front ++ [c])).dropLast = []) →
      cur.normal = c.normal) := by
  cases click with
  | true =>
    rw [makeNormals_id_true] at hcur ⊢
    rw [List.getLast?_concat] at hcur
    obtain rfl : c = cur := Option.some_injective _ hcur
    exact ⟨fun prev hf => absurd hf (by simp), fun _ => rfl⟩
  | false =>
    rcases List.eq_nil_or_concat front with rfl | ⟨front', prevC, rfl⟩
    · have hone : makeNormals false ([] ++ [c]) = [c] := by
        rw [List.nil_append]
        exact makeNormals_single false c
      rw [hone] at hcur ⊢
      obtain rfl : c = cur := Option.some_injective _ hcur
      refine ⟨fun prev _ hprev => absurd hprev (by simp), fun _ => rfl⟩
    · rw [List.concat_eq_append] at hcur ⊢
      rw [makeNormals_two front' prevC c] at hcur ⊢
      rw [List.getLast?_concat] at hcur
      obtain rfl : { c with normal := perpNormal (c.x - prevC.x) (c.y - prevC.y) } = cur :=
        Option.some_injective _ hcur
      constructor
      · intro prev _ hprev
        rw [List.dropLast_concat, List.getLast?_concat] at hprev
        obtain rfl : prevC = prev := Option.some_injective _ hprev
        rfl
      · intro hdisj
        rcases hdisj with hft | hdl
        · exact Bool.noConfusion hft
        · rw [List.dropLast_concat] at hdl
          exact absurd hdl (by simp)

lemma update_tail_normal (s : EffectState) (sess : PointerSession) (s' : EffectState)
    (cur : FilteredPoint)
    (hsess : s.currentSession = some sess) (h : onSessionUpdate s = some s')
    (hcur : s'.filteredPoints.getLast? = some cur) :
    (∀ prev, s'.isClick = false → s'.filteredPoints.dropLast.getLast? = some prev →
      cur.normal = perpNormal (cur.x - prev.x) (cur.y - prev.y)) ∧
    ((s'.isClick = true ∨ s'.filteredPoints.dropLast = []) → cur.normal = ⟨0, 0⟩) := by
  obtain ⟨e, pts, hIn, hfp, rfl⟩ := update_characterize s sess s' hsess h
  obtain ⟨front, b, rfl⟩ := filterPhase_shape _ _ _ hfp
  have hres := makeNormals_tail
    (if sess.traveledDistance > MIN_SWIPE_THRESHOLD then false else s.isClick)
    front { mkCandidate e sess.traveledDistance with isStart := b } cur hcur
  exact ⟨hres.1, fun hd => (hres.2 hd).trans rfl⟩

lemma perpNormal_zero : perpNormal 0 0 = ⟨0, 0⟩ := by
  rw [perpNormal, vec_normalize_zero]
  norm_num [vec_normalize_zero]

/-- Claim C7: on an update with a current session, normal computation runs
exactly when the resulting click flag is false and the filtered sequence has
at least two points (a point before the tail exists): in that case the
tail's normal equals the normalization of `(-dir.y, dir.x)` for `dir` the
normalized difference of the last two points, and it has unit length
whenever the two defining points differ; otherwise the tail's normal is the
zero vector (no normal is computed for the fresh tail). -/
theorem c7_normal_computation (s : EffectState) (sess : PointerSession) (s' : EffectState)
    (cur prev : FilteredPoint)
    (hsess : s.currentSession = some sess)
    (h : onSessionUpdate s = some s')
    (hcur : s'.filteredPoints.getLast? = some cur) :
    (s'.isClick = false → s'.filteredPoints.dropLast.getLast? = some prev →
      cur.normal = perpNormal (cur.x - prev.x) (cur.y - prev.y) ∧
      (¬(cur.x - prev.x = 0 ∧ cur.y - prev.y = 0) → cur.normal.length = 1)) ∧
    ((s'.isClick = true ∨ s'.filteredPoints.dropLast = []) → cur.normal = ⟨0, 0⟩) := by
  obtain ⟨h1, h2⟩ := update_tail_normal s sess s' cur hsess h hcur
  refine ⟨fun hc hp => ⟨h1 prev hc hp, fun hne => ?_⟩, h2⟩
  rw [h1 prev hc hp]
  exact perp_normal_unit _ _ hne

/-- Witness for C7 at the third update of the C4 scenario: the tail (60,0)
gets normal (0,1), which is the perpendicular formula value of unit length. -/
theorem c7_normal_computation_witness :
    (S43.isClick = false →
      S43.filteredPoints.dropLast.getLast? = some { B2 with isEnd := false } →
      C3p.normal = perpNormal (C3p.x - ({ B2 with isEnd := false } : FilteredPoint).x)
          (C3p.y - ({ B2 with isEnd := false } : FilteredPoint).y) ∧
      (¬(C3p.x - ({ B2 with isEnd := false } : FilteredPoint).x = 0 ∧
          C3p.y - ({ B2 with isEnd := false } : FilteredPoint).y = 0) →
        C3p.normal.length = 1)) ∧
    ((S43.isClick = true ∨ S43.filteredPoints.dropLast = []) → C3p.normal = ⟨0, 0⟩) :=
  c7_normal_computation ⟨some sess43, true, [{ A1 with isEnd := false }, B2]⟩ sess43 S43
    C3p { B2 with isEnd := false } rfl upd3 rfl

/-- Claim C9: when the two points defining the last segment coincide, the
normal computation yields the zero vector (Babylon's `normalize` returns a
zero-length vector unchanged), so the tail's normal stays at its initial
zero value and no invalid vector is produced. -/
theorem c9_degenerate_normal (s : EffectState) (sess : PointerSession) (s' : EffectState)
    (cur prev : FilteredPoint)
    (hsess : s.currentSession = some sess)
    (h : onSessionUpdate s = some s')
    (hcur : s'.filteredPoints.getLast? = some cur)
    (hprev : s'.filteredPoints.dropLast.getLast? = some prev)
    (hx : cur.x = prev.x) (hy : cur.y = prev.y) :
    cur.normal = ⟨0, 0⟩ := by
  obtain ⟨h1, h2⟩ := update_tail_normal s sess s' cur hsess h hcur
  cases hc : s'.isClick with
  | true => exact h2 (Or.inl hc)
  | false =>
    rw [h1 prev hc hprev, hx, hy, sub_self, sub_self]
    exact perpNormal_zero

/-- Witness for C9: overwriting the tail with a candidate at the same
position (5,0) as the last committed point leaves the tail's normal (0,0). -/
theorem c9_degenerate_normal_witness : (mkCandidate e9 20).normal = ⟨0, 0⟩ :=
  c9_degenerate_normal S9 sess9 ⟨some sess9, false, [P9a, mkCandidate e9 20]⟩
    (mkCandidate e9 20) P9a rfl upd9 rfl rfl rfl rfl

lemma map_dropLast_append {α β : Type} (f : α → β) (l : List α) :
    ∃ r, l.map f = l.dropLast.map f ++ r := by
  rcases List.eq_nil_or_concat l with rfl | ⟨front, x, rfl⟩
  · exact ⟨[], rfl⟩
  · rw [List.concat_eq_append, List.dropLast_concat]
    exact ⟨[f x], by simp⟩

/-- Claim C8: an update may modify only the tail's normal: the normals of
all non-tail (locked-in) filtered points after the update are exactly the
leading normals of the sequence before the update (no retroactive
recomputation). -/
theorem c8_normals_not_retroactive (s s' : EffectState)
    (h : onSessionUpdate s = some s') :
    ∃ rest, s.filteredPoints.map (fun p => p.normal) =
      s'.filteredPoints.dropLast.map (fun p => p.normal) ++ rest := by
  cases hcs : s.currentSession with
  | none =>
    have hs' : s' = s := by
      obtain ⟨cs, ic, fp⟩ := s
      have hcs2 : cs = none := hcs
      subst hcs2
      exact (Option.some_injective _ h).symm
    subst hs'
    exact map_dropLast_append _ _
  | some sess =>
    obtain ⟨e, pts, hIn, hfp, rfl⟩ := update_characterize s sess s' hcs h
    show ∃ rest, s.filteredPoints.map (fun p => p.normal) =
      (makeNormals (if sess.traveledDistance > MIN_SWIPE_THRESHOLD then false else s.isClick)
        pts).dropLast.map (fun p => p.normal) ++ rest
    generalize (if sess.traveledDistance > MIN_SWIPE_THRESHOLD then false else s.isClick) = cl
    rw [filterPhase] at hfp
    split at hfp
    · rename_i hnone
      injection hfp with hfp
      rw [List.getLast?_eq_none_iff.mp hnone, ← hfp, makeNormals_single]
      exact ⟨[], by simp⟩
    · split at hfp
      · exact Option.noConfusion hfp
      · rename_i x1 lastFP heq1 x2 ld heq2
        have hps : s.filteredPoints.dropLast ++ [lastFP] = s.filteredPoints :=
          List.dropLast_append_getLast? lastFP heq1
        split at hfp
        · injection hfp with hfp
          rw [← hfp]
          obtain ⟨n, hn⟩ := makeNormals_shape cl
            (s.filteredPoints.dropLast ++ [{ lastFP with isEnd := false }])
            (mkCandidate e sess.traveledDistance)
          rw [show s.filteredPoints.dropLast ++
              [{ lastFP with isEnd := false }, mkCandidate e sess.traveledDistance] =
              (s.filteredPoints.dropLast ++ [{ lastFP with isEnd := false }]) ++
                [mkCandidate e sess.traveledDistance] by simp, hn, List.dropLast_concat]
          refine ⟨[], ?_⟩
          rw [← hps]
          simp
        · injection hfp with hfp
          rw [← hfp]
          obtain ⟨n, hn⟩ := makeNormals_shape cl s.filteredPoints.dropLast
            (mkCandidate e sess.traveledDistance)
          rw [hn, List.dropLast_concat]
          refine ⟨[lastFP.normal], ?_⟩
          rw [← hps]
          simp

/-- Witness for C8 at the third update of the C4 scenario: the pre-update
normals (all zero) are exactly the non-tail normals afterwards. -/
theorem c8_normals_not_retroactive_witness :
    ∃ rest, (⟨some sess43, true, [{ A1 with isEnd := false }, B2]⟩ :
        EffectState).filteredPoints.map (fun p => p.normal) =
      S43.filteredPoints.dropLast.map (fun p => p.normal) ++ rest :=
  c8_normals_not_retroactive ⟨some sess43, true, [{ A1 with isEnd := false }, B2]⟩ S43 upd3

lemma update_click_out (sess2 : PointerSession) (c : Bool) (ps : List FilteredPoint)
    (s' : EffectState) (sess : PointerSession)
    (h : onSessionUpdate ⟨some sess2, c, ps⟩ = some s')
    (hs : s'.currentSession = some sess)
    (ht : sess.traveledDistance > MIN_SWIPE_THRESHOLD) : s'.isClick = false := by
  obtain ⟨e, pts, hIn, hfp, rfl⟩ := update_characterize ⟨some sess2, c, ps⟩ sess2 s' rfl h
  have hss : sess2 = sess := Option.some_injective _ hs
  subst hss
  show (if sess2.traveledDistance > MIN_SWIPE_THRESHOLD then false else c) = false
  rw [if_pos ht]

lemma update_click_abs (s : EffectState) (s' : EffectState)
    (h : onSessionUpdate s = some s') (hc : s.isClick = false) : s'.isClick = false := by
  cases hcs : s.currentSession with
  | none =>
    have hs' : s' = s := by
      obtain ⟨cs, ic, fp⟩ := s
      have hcs2 : cs = none := hcs
      subst hcs2
      exact (Option.some_injective _ h).symm
    subst hs'
    exact hc
  | some sess =>
    obtain ⟨e, pts, hIn, hfp, rfl⟩ := update_characterize s sess s' hcs h
    show (if sess.traveledDistance > MIN_SWIPE_THRESHOLD then false else s.isClick) = false
    simp [hc]

lemma handle_click_threshold (s : EffectState) (e : InputEvent) (s' : EffectState)
    (sess : PointerSession)
    (h : handleInput s e = some s') (hs : s'.currentSession = some sess)
    (ht : sess.traveledDistance > MIN_SWIPE_THRESHOLD) : s'.isClick = false := by
  cases hcs : s.currentSession with
  | none =>
    cases hf : e.isFirst with
    | false =>
      rw [handleInput_nosession s e hcs hf] at h
      exact update_click_out _ _ _ _ sess h hs ht
    | true =>
      rw [handleInput_first s e hf] at h
      exact update_click_out _ _ _ _ sess h hs ht
  | some old =>
    cases hf : e.isFirst with
    | false =>
      rw [handleInput_next s old e hcs hf] at h
      exact update_click_out _ _ _ _ sess h hs ht
    | true =>
      rw [handleInput_first s e hf] at h
      exact update_click_out _ _ _ _ sess h hs ht

lemma handle_click_abs (s : EffectState) (e : InputEvent) (s' : EffectState)
    (h : handleInput s e = some s') (hf : e.isFirst = false) (hc : s.isClick = false) :
    s'.isClick = false := by
  cases hcs : s.currentSession with
  | none =>
    rw [handleInput_nosession s e hcs hf] at h
    exact update_click_abs _ _ h hc
  | some old =>
    rw [handleInput_next s old e hcs hf] at h
    exact update_click_abs _ _ h hc

lemma run_click_abs : ∀ (es : List InputEvent) (s s' : EffectState),
    runEvents s es = some s' → (∀ x ∈ es, x.isFirst = false) → s.isClick = false →
    s'.isClick = false := by
  intro es
  induction es with
  | nil =>
    intro s s' h _ hc
    have hss : s = s' := Option.some_injective _ h
    exact hss ▸ hc
  | cons e es ih =>
    intro s s' h hfirst hc
    cases hh : handleInput s e with
    | none => rw [runEvents, hh] at h; exact Option.noConfusion h
    | some s1 =>
      rw [runEvents, hh] at h
      exact ih s1 s' h (fun x hx => hfirst x (by simp [hx]))
        (handle_click_abs s e s1 hh (hfirst e (by simp)) hc)

/-- Claim C6: once the session's cumulative traveled distance strictly
exceeds `MIN_SWIPE_THRESHOLD = 10` at some update, the click flag is false
after that update and after every later update of the same session (no
intervening first-flagged event); it is never set back to true. -/
theorem c6_click_one_way (s0 s1 s2 : EffectState) (e : InputEvent) (sess : PointerSession)
    (es : List InputEvent)
    (h0 : handleInput s0 e = some s1)
    (hs : s1.currentSession = some sess)
    (ht : sess.traveledDistance > MIN_SWIPE_THRESHOLD)
    (hes : ∀ x ∈ es, x.isFirst = false)
    (hrun : runEvents s1 es = some s2) :
    s1.isClick = false ∧ s2.isClick = false :=
  ⟨handle_click_threshold s0 e s1 sess h0 hs ht,
   run_click_abs es s1 s2 hrun hes (handle_click_threshold s0 e s1 sess h0 hs ht)⟩

/-- Witness for C6 at the third update of the C4 scenario (distance 60 > 10)
followed by the final update with per-step movement toward the threshold. -/
theorem c6_click_one_way_witness : S43.isClick = false ∧ S44.isClick = false :=
  c6_click_one_way S42 S43 S44 e43 sess43 [e44] step43 rfl
    (by norm_num [sess43, MIN_SWIPE_THRESHOLD]) (by simp [e44])
    (by simp [runEvents, step44])

/-- Claim C10: when an input event arrives while no session is active and the
event is not flagged first, a new session is created and updated but the
session-start reset does not run — the update sees the carried-over click
flag and filtered-point list — whereas for a first-flagged event the update
sees the reset state (click = true, filtered points cleared). -/
theorem c10_no_reset_without_first (s s2 : EffectState) (e e2 : InputEvent)
    (h1 : s.currentSession = none) (h2 : e.isFirst = false) (h3 : e2.isFirst = true) :
    handleInput s e =
      onSessionUpdate
        ⟨some (PointerSession.empty.addInputPoint e), s.isClick, s.filteredPoints⟩ ∧
    handleInput s2 e2 =
      onSessionUpdate ⟨some (PointerSession.empty.addInputPoint e2), true, []⟩ :=
  ⟨handleInput_nosession s e h1 h2, handleInput_first s2 e2 h3⟩

/-- Witness for C10: a non-first event with no active session carries over a
stale filtered-point list and click flag; a first event resets them. -/
theorem c10_no_reset_without_first_witness :
    handleInput ⟨none, false, [A1]⟩ ⟨⟨7, 9⟩, false, false⟩ =
      onSessionUpdate
        ⟨some (PointerSession.empty.addInputPoint ⟨⟨7, 9⟩, false, false⟩), false, [A1]⟩ ∧
    handleInput S42 e41 =
      onSessionUpdate ⟨some (PointerSession.empty.addInputPoint e41), true, []⟩ :=
  c10_no_reset_without_first ⟨none, false, [A1]⟩ S42 ⟨⟨7, 9⟩, false, false⟩ e41 rfl rfl rfl

/-- Witness for C1 at the third update of the C4 scenario: distance delta
60 > 50 commits the tail (5,0) and appends the candidate (60,0). -/
theorem c1_commit_or_overwrite_witness :
    (sess43.traveledDistance -
        ({ A1 with isEnd := false } : FilteredPoint).traveledDistance > MIN_SWIPE_SEG →
      ∃ s' n, onSessionUpdate ⟨some sess43, true, [{ A1 with isEnd := false }] ++ [B2]⟩ =
          some s' ∧
        s'.filteredPoints = [{ A1 with isEnd := false }] ++ [{ B2 with isEnd := false },
          { mkCandidate e43 sess43.traveledDistance with normal := n }] ∧
        s'.filteredPoints.length = ([{ A1 with isEnd := false }] ++ [B2]).length + 1) ∧
    (¬(sess43.traveledDistance -
        ({ A1 with isEnd := false } : FilteredPoint).traveledDistance > MIN_SWIPE_SEG) →
      ∃ s' n, onSessionUpdate ⟨some sess43, true, [{ A1 with isEnd := false }] ++ [B2]⟩ =
          some s' ∧
        s'.filteredPoints = [{ A1 with isEnd := false }] ++
          [{ mkCandidate e43 sess43.traveledDistance with normal := n }] ∧
        s'.filteredPoints.length = ([{ A1 with isEnd := false }] ++ [B2]).length) :=
  c1_commit_or_overwrite sess43 true [{ A1 with isEnd := false }] B2
    { A1 with isEnd := false } e43 rfl rfl rfl rfl
